import Mathlib

set_option maxRecDepth 100000

/-!
Verification of the extraction/segmentation pipeline and the indexing
protocol of the Strands documentation scraper (src/scraper/main.py),
as a shallow embedding in Lean.

Python strings are modelled as Lean `String` (a wrapped `List Char`);
Python `len`, slicing, `strip`, `lower`, `replace(' ', '-')`, `in` and
`join` are modelled by the `py*` helpers below, which operate on the
underlying character lists.

The DOM is an external collaborator (BeautifulSoup); it is modelled at
its interface: an element carries its tag name, optional `id`
attribute, CSS classes, the string returned by `get_text()`, and its
child elements.  Text nodes (NavigableString) carry no tag name in the
source and are neither collected nor act as boundaries, so they are
omitted from the model.
-/

namespace Strands

/-- Whitespace test used by Python `str.strip`. -/
def wsp (c : Char) : Bool := c.isWhitespace

/-- Front trim: drop leading whitespace. -/
def trimL (l : List Char) : List Char := l.dropWhile wsp

/-- Back trim: drop trailing whitespace. -/
def trimR (l : List Char) : List Char := (trimL l.reverse).reverse

/-- Python `str.strip()` on character lists. -/
def stripL (l : List Char) : List Char := trimR (trimL l)

/-- Python `s.strip()`. -/
def pyStrip (s : String) : String := ⟨stripL s.data⟩

/-- Python `len(s)` (counts code points). -/
def pyLen (s : String) : Nat := s.data.length

/-- Python `s[:n]`. -/
def pyTake (n : Nat) (s : String) : String := ⟨s.data.take n⟩

/-- Python `s[n:]`. -/
def pyDrop (n : Nat) (s : String) : String := ⟨s.data.drop n⟩

/-- Python `s.lower()` (ASCII-adequate model). -/
def pyLower (s : String) : String := ⟨s.data.map Char.toLower⟩

/-- List prefix test. -/
def isPrefixL : List Char → List Char → Bool
  | [], _ => true
  | _ :: _, [] => false
  | a :: as, b :: bs => a == b && isPrefixL as bs

/-- List infix test: does `pat` occur inside the second list? -/
def isInfixL (pat : List Char) : List Char → Bool
  | [] => pat.isEmpty
  | c :: t => isPrefixL pat (c :: t) || isInfixL pat t

/-- Python `sub in s` (substring containment). -/
def pyIn (sub s : String) : Bool := isInfixL sub.data s.data

/-- Python `s.startswith(pre)`. -/
def pyStartsWith (pre s : String) : Bool := isPrefixL pre.data s.data

/-- Python `sep.join(parts)` on character lists. -/
def joinWith (sep : List Char) : List (List Char) → List Char
  | [] => []
  | [a] => a
  | a :: b :: rest => a ++ sep ++ joinWith sep (b :: rest)

/-- Python `sep.join(parts)`. -/
def pyJoin (sep : String) (parts : List String) : String :=
  ⟨joinWith sep.data (parts.map String.data)⟩

/-- The slug derivation `title.lower().replace(' ', '-')` used for anchor
ids and subsection labels throughout the scraper. -/
def slugOf (t : String) : String :=
  ⟨(t.data.map Char.toLower).map (fun c => if c = ' ' then '-' else c)⟩

/-- Bool-valued membership in a list of strings (Python `x in [...]`). -/
def memS (s : String) (l : List String) : Bool := decide (s ∈ l)

mutual
/-- A rendered DOM element: tag name, optional id attribute, CSS
classes, the text `get_text()` would return, and child elements. -/
inductive Elem : Type where
  | mk (name : String) (idAttr : Option String) (classes : List String)
       (text : String) (children : ElemList) : Elem
/-- A sibling list of DOM elements (the children of one parent, or the
top-level contents of the parsed soup). -/
inductive ElemList : Type where
  | nil : ElemList
  | cons (e : Elem) (es : ElemList) : ElemList
end

def Elem.name : Elem → String
  | .mk n _ _ _ _ => n

def Elem.idAttr : Elem → Option String
  | .mk _ i _ _ _ => i

def Elem.classes : Elem → List String
  | .mk _ _ c _ _ => c

/-- The string `element.get_text()` returns (a collaborator primitive). -/
def Elem.getText : Elem → String
  | .mk _ _ _ t _ => t

def Elem.children : Elem → ElemList
  | .mk _ _ _ _ ch => ch

def ElemList.ofList : List Elem → ElemList
  | [] => .nil
  | e :: es => .cons e (ElemList.ofList es)

def ElemList.toList : ElemList → List Elem
  | .nil => []
  | .cons e es => e :: es.toList

/-- Convenience constructor for concrete elements. -/
def el (name : String) (idAttr : Option String) (classes : List String)
    (text : String) (children : List Elem) : Elem :=
  .mk name idAttr classes text (ElemList.ofList children)

mutual
/-- All elements of a subtree in document (preorder) order. -/
def Elem.all : Elem → List Elem
  | .mk n i c t ch => Elem.mk n i c t ch :: ElemList.all ch
/-- All elements of a forest in document (preorder) order. -/
def ElemList.all : ElemList → List Elem
  | .nil => []
  | .cons e es => e.all ++ es.all
end

mutual
/-- BeautifulSoup-style search: every element satisfying `p`, in
document order, each paired with the list of its following siblings
(the `next_sibling` chain the scraper walks from it). -/
def findTailsE (p : Elem → Bool) : Elem → ElemList → List (Elem × ElemList)
  | .mk n i c t ch, tail =>
    (if p (.mk n i c t ch) then [(Elem.mk n i c t ch, tail)] else []) ++ findTailsL p ch
def findTailsL (p : Elem → Bool) : ElemList → List (Elem × ElemList)
  | .nil => []
  | .cons e es => findTailsE p e es ++ findTailsL p es
end

/-- `soup.find(...)`: first element satisfying `p` in document order,
with its sibling tail. -/
def findFirstWithTail (p : Elem → Bool) (l : ElemList) : Option (Elem × ElemList) :=
  (findTailsL p l).head?

/-- A navigation entry produced by `extract_navigation_sections`
(title, href and nesting level of a menu link). -/
structure NavEntry : Type where
  title : String
  href : String
  level : Nat
deriving DecidableEq

/-- A section candidate as produced by the segmenters: the dict built
in `extract_comprehensive_sections`, `extract_additional_content_blocks`
and `extract_navigation_based_sections`.  The Python key `section` is
called `sectionLabel` here (`section` is a Lean keyword); `id` is the
anchor id. -/
structure SectionData : Type where
  title : String
  content : String
  sectionLabel : String
  subsection : String
  headers : List String
  code_blocks : List String
  id : String
deriving DecidableEq

/-- The ordered keyword table of `categorize_heading`
(src/scraper/main.py lines 335-352); Python dict iteration follows
insertion order. -/
def section_mappings : List (String × String × String) :=
  [("quickstart", "user-guide", "quickstart"),
   ("concepts", "user-guide", "concepts"),
   ("agents", "user-guide", "agents"),
   ("tools", "user-guide", "tools"),
   ("model providers", "user-guide", "model-providers"),
   ("streaming", "user-guide", "streaming"),
   ("multi-agent", "user-guide", "multi-agent"),
   ("safety", "user-guide", "safety"),
   ("security", "user-guide", "security"),
   ("observability", "user-guide", "observability"),
   ("evaluation", "user-guide", "evaluation"),
   ("deploy", "user-guide", "deploy"),
   ("examples", "examples", "overview"),
   ("api reference", "api-reference", "overview"),
   ("features", "main", "features"),
   ("next steps", "main", "next-steps")]

/-- `categorize_heading(heading_text, heading_level, nav_sections)`
(lines 330-364).  The `nav_sections` parameter is accepted but unused,
exactly as in the source. -/
def categorize_heading (heading_text heading_level : String)
    (_nav_sections : List NavEntry) : String × String :=
  let heading_lower := pyLower heading_text
  match section_mappings.find? (fun m => pyIn m.1 heading_lower) with
  | some m => (m.2.1, m.2.2)
  | none =>
    if heading_level = "h1" then ("main", "overview")
    else if heading_level = "h2" then ("user-guide", slugOf heading_text)
    else ("user-guide", "concepts")

/-- Tags collected as content by the heading-based walk (line 284). -/
def contentTags : List String := ["p", "div", "ul", "ol", "pre", "code", "blockquote"]

def headingTags123 : List String := ["h1", "h2", "h3"]

def headingTagsAll : List String := ["h1", "h2", "h3", "h4", "h5", "h6"]

/-- `int(name[1])` for an h1-h6 tag name. -/
def hLevel (n : String) : Nat := (n.data.getD 1 '0').toNat - '0'.toNat

/-- `int(name[1]) if name[1].isdigit() else default`, totalized: Python
would raise IndexError on a one-character tag name; the model reads a
non-digit placeholder there, agreeing with Python wherever Python does
not raise. -/
def levelOr (default : Nat) (n : String) : Nat :=
  let c := n.data.getD 1 ' '
  if c.isDigit then c.toNat - '0'.toNat else default

/-- The sibling walk of the heading-based extractor (lines 272-287):
collect `contentTags` elements until the next h1-h3 sibling of
numerically equal or smaller level. -/
def collectUntilBoundary (headingLevel : Nat) : ElemList → List Elem
  | .nil => []
  | .cons e rest =>
    if memS e.name headingTags123 ∧ hLevel e.name ≤ headingLevel then []
    else
      (if memS e.name contentTags then [e] else []) ++
        collectUntilBoundary headingLevel rest

/-- The per-element loop of lines 294-304: build, in order,
`content_parts` (stripped non-empty texts), the extra `headers`
(h4-h6, dead in this path because such tags are never collected), and
`code_blocks` (pre/code texts longer than 10). -/
def gatherParts : List Elem → List String × List String × List String
  | [] => ([], [], [])
  | e :: rest =>
    let r := gatherParts rest
    let text := pyStrip e.getText
    ((if text ≠ "" then text :: r.1 else r.1),
     (if memS e.name ["h4", "h5", "h6"] then text :: r.2.1 else r.2.1),
     (if memS e.name ["pre", "code"] ∧ 10 < pyLen text then text :: r.2.2 else r.2.2))

/-- The body of the `for i, heading in enumerate(headings)` loop
(lines 262-319): the section candidate derived from one h1-h3 heading
and its following siblings, or `none` when the heading is skipped. -/
def buildHeadingSection (nav_sections : List NavEntry) (heading : Elem)
    (tail : ElemList) : Option SectionData :=
  let heading_text := pyStrip heading.getText
  if pyLen heading_text < 2 then none
  else
    let sc := categorize_heading heading_text heading.name nav_sections
    let g := gatherParts (collectUntilBoundary (hLevel heading.name) tail)
    let content := pyJoin " " g.1
    if content ≠ "" ∧ 50 < pyLen content then
      some { title := heading_text, content := content,
             sectionLabel := sc.1, subsection := sc.2,
             headers := heading_text :: g.2.1, code_blocks := g.2.2,
             id := heading.idAttr.getD (slugOf heading_text) }
    else none

/-- The heading-based part of `extract_comprehensive_sections`:
`soup.find_all(['h1','h2','h3'])` in document order, one candidate per
surviving heading. -/
def headingSections (soup : ElemList) (nav_sections : List NavEntry) : List SectionData :=
  (findTailsL (fun e => memS e.name headingTags123) soup).filterMap
    (fun ht => buildHeadingSection nav_sections ht.1 ht.2)

/-- CSS selectors of `extract_additional_content_blocks` (lines 369-375). -/
def content_selectors : List String :=
  ["article", ".content", ".documentation", ".docs-content", "section"]

/-- A selector of the restricted shape used above: a bare tag name, or
`.cls` matching by CSS class. -/
def matchesSelector (sel : String) (e : Elem) : Bool :=
  if pyStartsWith "." sel then decide (pyDrop 1 sel ∈ e.classes)
  else decide (e.name = sel)

/-- `soup.select(selector)` results for each selector in order
(an element matching two selectors is visited twice, as in the source's
nested loops). -/
def selectedElems (soup : ElemList) : List Elem :=
  content_selectors.foldr
    (fun sel acc => ((findTailsL (matchesSelector sel) soup).map Prod.fst) ++ acc) []

/-- Title of an additional block: first h1-h4 descendant's stripped
text, else the generic title (lines 384-387). -/
def additionalTitle (e : Elem) : String :=
  match ((findTailsL (fun x => memS x.name ["h1", "h2", "h3", "h4"]) e.children).map
      Prod.fst).head? with
  | some t => pyStrip t.getText
  | none => "Additional Documentation"

/-- The per-element body of `extract_additional_content_blocks`
(lines 380-397): accept a block when its stripped text exceeds 200
characters and its first 100 characters are not in the frozen
`existing_content` fingerprint set. -/
def additionalBlock (existing_content : List String) (count : Nat)
    (e : Elem) : Option SectionData :=
  let text := pyStrip e.getText
  if 200 < pyLen text ∧ pyTake 100 text ∉ existing_content then
    some { title := additionalTitle e, content := text,
           sectionLabel := "additional", subsection := "content",
           headers := [additionalTitle e], code_blocks := [],
           id := "additional-" ++ Nat.repr count }
  else none

/-- The selection loop of `extract_additional_content_blocks`:
`existing_content` stays the set computed on entry, while
`existing_sections` grows (the source never updates the set). -/
def addBlocksLoop (existing_content : List String) :
    List Elem → List SectionData → List SectionData
  | [], secs => secs
  | e :: rest, secs =>
    match additionalBlock existing_content secs.length e with
    | some sd => addBlocksLoop existing_content rest (secs ++ [sd])
    | none => addBlocksLoop existing_content rest secs

/-- `extract_additional_content_blocks(soup, existing_sections)`
(lines 366-397); the fingerprint set is the first 100 characters of
each section already present when the scan starts. -/
def extract_additional_content_blocks (soup : ElemList)
    (sections : List SectionData) : List SectionData :=
  addBlocksLoop (sections.map fun s => pyTake 100 s.content) (selectedElems soup) sections

/-- Tags collected by the navigation-based walk (line 470). -/
def collectTagsNav : List String :=
  ["p", "div", "ul", "ol", "pre", "code", "blockquote", "h4", "h5", "h6"]

/-- Content resolution for a navigation entry (lines 418-444): by id
when the href is a same-page anchor, else first h1-h6 heading whose
stripped text and the entry title contain one another case-insensitively. -/
def resolveContentElem (soup : ElemList) (title href : String) :
    Option (Elem × ElemList) :=
  let byId :=
    if pyStartsWith "#" href then
      findFirstWithTail (fun e => decide (e.idAttr = some (pyDrop 1 href))) soup
    else none
  match byId with
  | some r => some r
  | none =>
    findFirstWithTail
      (fun e => memS e.name headingTagsAll &&
        (pyIn (pyLower title) (pyLower (pyStrip e.getText)) ||
         pyIn (pyLower (pyStrip e.getText)) (pyLower title))) soup

/-- The `while current and content_length < 5000` walk of lines
454-483, starting at the resolved element itself (`isFirst` models the
`current != content_elem` identity test): returns `content_parts`,
extra `headers` and `code_blocks` in order. -/
def navWalk (navLevel : Nat) : ElemList → Nat → Bool →
    List String × List String × List String
  | .nil, _, _ => ([], [], [])
  | .cons e rest, content_length, isFirst =>
    if 5000 ≤ content_length then ([], [], [])
    else if memS e.name headingTagsAll ∧ ¬ isFirst = true ∧
        levelOr 6 e.name ≤ navLevel then ([], [], [])
    else
      let text := pyStrip e.getText
      if memS e.name collectTagsNav ∧ text ≠ "" then
        let r := navWalk navLevel rest (content_length + pyLen text) false
        (text :: r.1,
         (if memS e.name ["h4", "h5", "h6"] then text :: r.2.1 else r.2.1),
         (if memS e.name ["pre", "code"] ∧ 10 < pyLen text then text :: r.2.2 else r.2.2))
      else navWalk navLevel rest content_length false

/-- The body of the `for i, nav_section in enumerate(nav_sections)`
loop (lines 407-503): the navigation-based candidate for one entry
given the number of candidates already created, or `none` when the
entry is skipped as version noise, resolves to nothing, or yields at
most 100 characters. -/
def navSectionFor (soup : ElemList) (createdCount : Nat) (entry : NavEntry) :
    Option SectionData :=
  if pyIn "0." (pyLower entry.title) = true ∨ pyIn "1." (pyLower entry.title) = true then
    none
  else
    match resolveContentElem soup entry.title entry.href with
    | none => none
    | some (content_elem, tail) =>
      let navLevel := levelOr 1 content_elem.name
      let r := navWalk navLevel (.cons content_elem tail) 0 true
      let content := pyJoin " " r.1
      if content ≠ "" ∧ 100 < pyLen content then
        some { title := entry.title, content := content,
               sectionLabel := "navigation-based",
               subsection := slugOf entry.title,
               headers := entry.title :: r.2.1, code_blocks := r.2.2,
               id := "nav-" ++ Nat.repr createdCount ++ "-" ++ slugOf entry.title }
      else none

/-- The accumulation loop over navigation entries; `created.length`
is `len(nav_sections_created)` at creation time. -/
def navLoop (soup : ElemList) : List NavEntry → List SectionData → List SectionData
  | [], created => created
  | e :: rest, created =>
    match navSectionFor soup created.length e with
    | some sd => navLoop soup rest (created ++ [sd])
    | none => navLoop soup rest created

/-- `extract_navigation_based_sections(soup, nav_sections)` (lines 399-506). -/
def extract_navigation_based_sections (soup : ElemList)
    (nav_sections : List NavEntry) : List SectionData :=
  navLoop soup nav_sections []

/-- `extract_comprehensive_sections(soup, nav_sections)` (lines
253-328): heading-based candidates, then the additional-block scan
appending to them, then the navigation-based candidates appended. -/
def extract_comprehensive_sections (soup : ElemList)
    (nav_sections : List NavEntry) : List SectionData :=
  extract_additional_content_blocks soup (headingSections soup nav_sections) ++
    extract_navigation_based_sections soup nav_sections

/-- The persisted unit built in `extract_sections_from_spa`
(lines 207-217).  `sectionLabel` renders the Python key `section`. -/
structure SectionDocument : Type where
  url : String
  title : String
  content : String
  sectionLabel : String
  subsection : String
  headers : String
  code_blocks : String
  scraped_at : String
  version : String
deriving DecidableEq

/-- The document dict of lines 207-217 for one accepted candidate;
every creation site sets the candidate's `id`, so the
`section_data.get('id', ...)` fallback never fires. -/
def docOfSection (pageUrl scraped_at : String) (s : SectionData) : SectionDocument :=
  { url := pageUrl ++ "#" ++ s.id, title := s.title, content := s.content,
    sectionLabel := s.sectionLabel, subsection := s.subsection,
    headers := pyJoin " | " s.headers, code_blocks := pyJoin " | " s.code_blocks,
    scraped_at := scraped_at, version := "1.1.x" }

/-- `extract_sections_from_spa` (lines 181-221) from the cleaned
content tree and the navigation entries extracted from the page: keep a
candidate when its content strips to non-empty and exceeds 100
characters. -/
def extract_sections_from_spa (soup : ElemList) (nav_sections : List NavEntry)
    (pageUrl scraped_at : String) : List SectionDocument :=
  (extract_comprehensive_sections soup nav_sections).filterMap
    (fun s =>
      if pyStrip s.content ≠ "" ∧ 100 < pyLen s.content then
        some (docOfSection pageUrl scraped_at s)
      else none)

/-!
The indexing protocol.  Documents reaching `index_documents` are
Python dicts; for the validation in `doc_generator` the keys matter, so
a document is modelled as an association list of string fields.  The
Elasticsearch collaborator is modelled at its documented interface: an
index is the list of stored documents in insertion order; a bulk action
carrying only `_index` and `_source` (no `_id`, which is exactly what
`doc_generator` yields) makes Elasticsearch store a fresh document
under an auto-generated id, so each submitted action appends.  Chunking
(`chunk_size=50`) does not change totals, and `helpers.bulk` returns
`(success_count, failed)` with `failed = []` when every submitted
action is accepted.
-/

/-- A document as a Python dict: field name to string value. -/
abbrev PyDoc : Type := List (String × String)

/-- The validation of `doc_generator` (line 587): the dict has a `url`
key (presence only; the value is not inspected). -/
def hasUrlKey (d : PyDoc) : Bool := d.any (fun kv => kv.1 == "url")

/-- The `url` field value, when the key is present. -/
def urlOf (d : PyDoc) : Option String := (d.find? (fun kv => kv.1 == "url")).map (·.2)

/-- `doc_generator` (lines 578-597): yield an `_index`/`_source` action
per dict that has a `url` key; dicts without one are logged and
skipped (`continue`), producing no action and no failure entry. -/
def doc_generator (documents : List PyDoc) : List PyDoc :=
  documents.filter hasUrlKey

/-- State of the Elasticsearch collaborator for the single target index
`strands-agents-docs`: whether the index exists, and its stored
documents in insertion order. -/
structure EsState : Type where
  indexExists : Bool
  docs : List PyDoc
deriving DecidableEq

/-- `setup_elasticsearch` (lines 96-143), an async method awaited from
`__aenter__` at session start (it is never actually executed
mid-crawl; see `index_documents`): once Elasticsearch answers the
readiness ping, an existing index is deleted (line 135), then the
index is created afresh (line 138) — so a completed run always ends
with an existing, empty index, discarding any previously stored
documents. -/
def setup_elasticsearch (_st : EsState) : EsState :=
  { indexExists := true, docs := [] }

/-- `helpers.bulk(es_client, actions, chunk_size=50)` for id-less index
actions: append every action as a new document and report
`(success_count, failed)`. -/
def esBulk (st : EsState) (actions : List PyDoc) : EsState × Nat × List String :=
  ({ indexExists := st.indexExists, docs := st.docs ++ actions }, actions.length, [])

/-- `index_documents` (lines 558-612) with the connectivity probe's
outcome as an input: an empty batch returns immediately.  On a failed
ping the source invokes the async `setup_elasticsearch` without
`await` (lines 569 and 573, inside the synchronous `index_documents`):
that only creates a coroutine object and never runs its body, and
creating it cannot raise, so no reconnection and no index recreation
take place and the state is unchanged.  Either way the generator's
actions are then bulk-submitted against the existing client.  Result:
the Elasticsearch state, the success count and the failure list. -/
def index_documents (_pingOk : Bool) (st : EsState) (documents : List PyDoc) :
    EsState × Nat × List String :=
  if documents.isEmpty then (st, 0, [])
  else esBulk st (doc_generator documents)

/-- Number of stored documents whose `url` field equals `u`. -/
def countWithUrl (docs : List PyDoc) (u : String) : Nat :=
  (docs.filter (fun d => decide (urlOf d = some u))).length

/-- `stop_after_attempt(3)` on `setup_elasticsearch` and
`index_documents` (lines 96 and 558). -/
def stop_after_attempt_setup : Nat := 3

/-- `wait_exponential(multiplier=1, min=4, max=10)` (lines 96 and 558):
the wait before a retry is an exponential `2 ^ k` clamped into
`[4, 10]`. -/
def wait_exponential_wait (k : Nat) : Nat := max 4 (min (2 ^ k) 10)

/-!
Concrete pages, navigation entries and batches used to instantiate the
theorems below.
-/

def txtAlpha : String :=
  "Alpha section body text that is deliberately written long enough to exceed the one hundred character content floor imposed by the scraper pipeline."

/-- A page whose h2 carries id `alpha` and is followed by one long
paragraph. -/
def soupDup : ElemList :=
  .ofList [el "h2" (some "alpha") [] "Alpha" [], el "p" none [] txtAlpha []]

def navDup : List NavEntry := [⟨"Alpha", "#alpha", 1⟩]

def txtA : String :=
  "Introductory paragraph for the Alpha Heading area with sufficient length to pass the fifty character creation floor."

def txtB : String :=
  "Body text that belongs to Beta Heading alone and must stay within the Beta section boundaries."

def txtC : String :=
  "Body text that belongs to Gamma Heading alone and must never leak backward into the Beta section."

/-- The level-boundary scenario: H1, then H2 "Beta Heading", then H2
"Gamma Heading", with a paragraph after each heading. -/
def soupLevels : ElemList :=
  .ofList [el "h1" none [] "Alpha Heading" [], el "p" none [] txtA [],
           el "h2" none [] "Beta Heading" [], el "p" none [] txtB [],
           el "h2" none [] "Gamma Heading" [], el "p" none [] txtC []]

def txtWelcome : String :=
  "A long welcome paragraph that would certainly exceed the one hundred character content floor if it were ever extracted into a candidate."

/-- A page with a single identified heading, used for the unresolvable
navigation entry. -/
def soupMissing : ElemList :=
  .ofList [el "h2" (some "real-id") [] "Welcome Guide" [], el "p" none [] txtWelcome []]

/-- Entry whose href anchor matches no id and whose title matches no
heading text. -/
def entryMissing : NavEntry := ⟨"Zzz Qqq", "#missing-id", 1⟩

/-- A block with an id, used to instantiate the id-priority branch. -/
def soupTarget : ElemList :=
  .ofList [el "div" (some "target-id") [] "Target block content." []]

def txtTwoDot : String :=
  "Release notes for the two point zero line of the product with enough body text to exceed the one hundred character floor."

/-- A page whose h2 is titled `2.0` and carries id `v2`. -/
def soupVersion : ElemList :=
  .ofList [el "h2" (some "v2") [] "2.0" [], el "p" none [] txtTwoDot []]

def entryVersion : NavEntry := ⟨"2.0", "#v2", 1⟩

def txtShared1 : String :=
  "First body paragraph long enough to clear the fifty character creation floor for heading based sections."

def txtShared2 : String :=
  "Second body paragraph long enough to clear the fifty character creation floor for heading based sections too."

/-- Two distinct headings without id attributes whose texts strip to
the same title. -/
def hShared1 : Elem := el "h3" none [] "Shared Title  " []

def hShared2 : Elem := el "h3" none [] "  Shared Title" []

def tlShared1 : ElemList := .ofList [el "p" none [] txtShared1 []]

def tlShared2 : ElemList := .ofList [el "p" none [] txtShared2 []]

/-- Expected candidate for `hShared1` over `tlShared1`. -/
def sdShared1 : SectionData :=
  ⟨"Shared Title", txtShared1, "user-guide", "concepts", ["Shared Title"], [], "shared-title"⟩

/-- Expected candidate for `hShared2` over `tlShared2`. -/
def sdShared2 : SectionData :=
  ⟨"Shared Title", txtShared2, "user-guide", "concepts", ["Shared Title"], [], "shared-title"⟩

def txtNav1 : String :=
  "Alpha part navigation content with clearly more than one hundred characters of body text to pass the content length gate."

def txtNav2 : String :=
  "Beta part navigation content with clearly more than one hundred characters of body text to pass the content length gate too."

/-- A page with two identified headings, each followed by a long
paragraph. -/
def soupTwoNav : ElemList :=
  .ofList [el "h2" (some "a1") [] "Alpha Part" [], el "p" none [] txtNav1 [],
           el "h2" (some "b1") [] "Beta Part" [], el "p" none [] txtNav2 []]

def navTwoNav : List NavEntry := [⟨"Alpha Part", "#a1", 1⟩, ⟨"Beta Part", "#b1", 1⟩]

/-- Expected second navigation-based candidate for `soupTwoNav`. -/
def sdNav1 : SectionData :=
  ⟨"Beta Part", txtNav2, "navigation-based", "beta-part", ["Beta Part"], [], "nav-1-beta-part"⟩

def txtDelta : String :=
  "Delta topic paragraph carrying well over one hundred characters of body text so that the produced candidate becomes a persisted document."

def txtEpsilon : String :=
  "Epsilon body text above fifty characters but at most one hundred."

/-- A page producing one accepted candidate (Delta) and one candidate
above the 50-character creation floor but at most 100 characters
(Epsilon), which must be discarded. -/
def soupFloor : ElemList :=
  .ofList [el "h2" none [] "Delta Topic" [], el "p" none [] txtDelta [],
           el "h2" none [] "Epsilon Topic" [], el "p" none [] txtEpsilon []]

/-- Expected Epsilon candidate. -/
def sdEpsilon : SectionData :=
  ⟨"Epsilon Topic", txtEpsilon, "user-guide", "epsilon-topic", ["Epsilon Topic"], [], "epsilon-topic"⟩

/-- Expected Delta document. -/
def docDelta : SectionDocument :=
  ⟨"https://site/page#delta-topic", "Delta Topic", txtDelta, "user-guide", "delta-topic",
   "Delta Topic", "", "2025-01-01T00:00:00Z", "1.1.x"⟩

def txtArticle : String :=
  "Article body prose for the supplementary block extraction test, which has to be longer than two hundred characters so that the additional content scan accepts it; this sentence keeps going until that threshold is comfortably exceeded for the test."

/-- A page consisting of one `article` region. -/
def soupArticle : ElemList := .ofList [el "article" none [] txtArticle []]

/-- Expected additional-block candidate when the scan starts from the
one-element list `[sdShared1]`. -/
def sdArticle : SectionData :=
  ⟨"Additional Documentation", txtArticle, "additional", "content",
   ["Additional Documentation"], [], "additional-1"⟩

def pdoc1 : PyDoc := [("url", "https://site/page#intro"), ("title", "First write")]

def pdoc2 : PyDoc := [("url", "https://site/page#intro"), ("title", "Second write")]

/-- Five valid documents and one lacking a `url` key. -/
def batchSix : List PyDoc :=
  [[("url", "u1")], [("url", "u2")], [("url", "u3")], [("url", "u4")], [("url", "u5")],
   [("title", "missing url")]]

/-!
Helper lemmas.
-/

theorem hasUrlKey_of_urlOf {d : PyDoc} {u : String} (h : urlOf d = some u) :
    hasUrlKey d = true := by
  unfold urlOf at h
  rcases Option.map_eq_some'.mp h with ⟨kv, hfind, _⟩
  have hp := List.find?_some hfind
  exact List.any_eq_true.mpr ⟨kv, List.mem_of_find?_eq_some hfind, hp⟩

theorem countWithUrl_append (a b : List PyDoc) (u : String) :
    countWithUrl (a ++ b) u = countWithUrl a u + countWithUrl b u := by
  simp [countWithUrl, List.filter_append]

theorem countWithUrl_singleton {d : PyDoc} {u : String} (h : urlOf d = some u) :
    countWithUrl [d] u = 1 := by
  simp [countWithUrl, List.filter_cons, h]

/-!
Claim theorems.
-/

/-- C1 counterexample: indexing the same document url twice does not
leave exactly one document with that url — starting from an empty
index, two `index_documents` calls carrying the same url
`https://site/page#intro` leave two stored documents with that url. -/
theorem indexing_same_url_twice_duplicates :
    countWithUrl ((index_documents true (index_documents true ⟨true, []⟩ [pdoc1]).1
        [pdoc2]).1).docs "https://site/page#intro" = 2 ∧ (2 : Nat) ≠ 1 := by
  constructor
  · decide
  · decide

/-- C1 (corrected): `doc_generator` emits bulk actions without an
`_id`, so submitting the same url twice appends two new documents:
after two single-document batches sharing url `u`, the index holds
exactly two more documents with url `u` than before — it is not an
upsert keyed on `url`. -/
theorem index_documents_appends_same_url :
    ∀ (st : EsState) (d1 d2 : PyDoc) (u : String),
      urlOf d1 = some u → urlOf d2 = some u →
      countWithUrl ((index_documents true (index_documents true st [d1]).1 [d2]).1).docs u =
        countWithUrl st.docs u + 2 := by
  intro st d1 d2 u h1 h2
  have k1 : hasUrlKey d1 = true := hasUrlKey_of_urlOf h1
  have k2 : hasUrlKey d2 = true := hasUrlKey_of_urlOf h2
  have e : ((index_documents true (index_documents true st [d1]).1 [d2]).1).docs =
      (st.docs ++ [d1]) ++ [d2] := by
    simp [index_documents, esBulk, doc_generator, List.filter_cons, k1, k2]
  rw [e, countWithUrl_append, countWithUrl_append,
    countWithUrl_singleton h1, countWithUrl_singleton h2]

/-- C1 witness: the corrected statement at the concrete double write. -/
theorem index_documents_appends_same_url_witness :
    countWithUrl ((index_documents true (index_documents true ⟨true, []⟩ [pdoc1]).1
        [pdoc2]).1).docs "https://site/page#intro" =
      countWithUrl (EsState.mk true []).docs "https://site/page#intro" + 2 :=
  index_documents_appends_same_url ⟨true, []⟩ pdoc1 pdoc2 "https://site/page#intro"
    (by decide) (by decide)

/-- C2 counterexample: a batch of 5 valid documents and 1 document
lacking a `url` key returns success count 5 but an empty failure list
(0 entries, not the claimed 1): the skipped document is only logged. -/
theorem invalid_doc_skipped_not_failed :
    (index_documents true ⟨true, []⟩ batchSix).2.1 = 5 ∧
    (index_documents true ⟨true, []⟩ batchSix).2.2.length = 0 ∧ (0 : Nat) ≠ 1 := by
  refine ⟨by decide, by decide, by decide⟩

/-- C2 (corrected): `doc_generator` checks only that the `url` key is
present; a document without it is skipped (logged) without aborting the
batch and without producing a failure entry, so a non-empty batch
yields exactly the url-keyed documents appended to the index, a success
count equal to their number, and an empty failure list. -/
theorem index_documents_partial_validation :
    ∀ (st : EsState) (documents : List PyDoc), documents ≠ [] →
      (index_documents true st documents).1.docs = st.docs ++ documents.filter hasUrlKey ∧
      (index_documents true st documents).2.1 = (documents.filter hasUrlKey).length ∧
      (index_documents true st documents).2.2 = ([] : List String) := by
  intro st documents h
  match documents, h with
  | d :: ds, _ => exact ⟨rfl, rfl, rfl⟩

/-- C2 witness: the corrected statement at the 5-valid/1-invalid batch
(where the filtered batch has 5 documents and the failure list is
empty). -/
theorem index_documents_partial_validation_witness :
    (index_documents true ⟨true, []⟩ batchSix).2.1 = (batchSix.filter hasUrlKey).length ∧
    (index_documents true ⟨true, []⟩ batchSix).2.2 = ([] : List String) :=
  ⟨(index_documents_partial_validation ⟨true, []⟩ batchSix (by decide)).2.1,
   (index_documents_partial_validation ⟨true, []⟩ batchSix (by decide)).2.2⟩

/-- C5 counterexample: the claim says the target index is recreated
only if it does not already exist, but `setup_elasticsearch` on a state
whose index exists (and holds a document) deletes it and recreates it
empty. -/
theorem setup_recreates_existing_index :
    setup_elasticsearch ⟨true, [pdoc1]⟩ = ⟨true, []⟩ ∧ ([pdoc1] : List PyDoc) ≠ [] :=
  ⟨rfl, by decide⟩

/-- C5 (corrected): before the first submission in a session,
`setup_elasticsearch` (awaited at context entry, its transient
failures retried up to 3 attempts with an exponential wait clamped
into [4, 10] time units, nondecreasing in the attempt number)
establishes the connection and unconditionally recreates the target
index, deleting any existing one; a failed connectivity probe during
indexing re-establishes nothing — the async `setup_elasticsearch` is
invoked without `await`, its body never runs, and the batch is
submitted against the unchanged index regardless of the ping outcome. -/
theorem reconnect_and_retry_policy :
    (∀ st : EsState, setup_elasticsearch st = ⟨true, []⟩) ∧
    (∀ (pingOk : Bool) (st : EsState) (documents : List PyDoc), documents ≠ [] →
      index_documents pingOk st documents =
        (⟨st.indexExists, st.docs ++ documents.filter hasUrlKey⟩,
         (documents.filter hasUrlKey).length, ([] : List String))) ∧
    stop_after_attempt_setup = 3 ∧
    (∀ k, 4 ≤ wait_exponential_wait k ∧ wait_exponential_wait k ≤ 10) ∧
    (∀ j k, j ≤ k → wait_exponential_wait j ≤ wait_exponential_wait k) := by
  refine ⟨fun _ => rfl, ?_, rfl, ?_, ?_⟩
  · intro pingOk st documents h
    match documents, h with
    | d :: ds, _ => rfl
  · intro k
    exact ⟨le_max_left _ _, max_le (by norm_num) (min_le_right _ _)⟩
  · intro j k h
    exact max_le_max le_rfl (min_le_min (Nat.pow_le_pow_right (by norm_num) h) le_rfl)

/-- C5 witness: the corrected statement at concrete inputs — the
startup setup empties a one-document index, a failed-ping submission
appends to the existing one-document index without wiping it, and the
retry waits are within bounds and monotone. -/
theorem reconnect_and_retry_policy_witness :
    setup_elasticsearch ⟨true, [pdoc1]⟩ = ⟨true, []⟩ ∧
    (index_documents false ⟨true, [pdoc1]⟩ [pdoc2]).1.docs = [pdoc1, pdoc2] ∧
    (4 ≤ wait_exponential_wait 0 ∧ wait_exponential_wait 0 ≤ 10) ∧
    wait_exponential_wait 0 ≤ wait_exponential_wait 5 := by
  refine ⟨reconnect_and_retry_policy.1 ⟨true, [pdoc1]⟩, ?_,
    reconnect_and_retry_policy.2.2.2.1 0, reconnect_and_retry_policy.2.2.2.2 0 5 (by decide)⟩
  have h := reconnect_and_retry_policy.2.1 false ⟨true, [pdoc1]⟩ [pdoc2] (by decide)
  rw [h]
  decide

/-- C8 counterexample: a navigation entry titled `2.0` — a bare
version-like token — is not excluded from navigation-based extraction:
it yields a section, because the source's noise test only looks for the
substrings `0.` and `1.`, neither of which occurs in `2.0`. -/
theorem version_like_title_not_excluded :
    (extract_navigation_based_sections soupVersion [entryVersion]).map (fun s => s.title) =
      ["2.0"] ∧
    pyIn "0." (pyLower "2.0") = false ∧ pyIn "1." (pyLower "2.0") = false := by
  refine ⟨by decide, by decide, by decide⟩

/-- C8 (corrected): a navigation entry is excluded as version noise
exactly when its lower-cased title contains the substring `0.` or `1.`;
any such entry (for example one titled `1.2`) yields no
navigation-based section. -/
theorem version_noise_substring_skip :
    ∀ (soup : ElemList) (k : Nat) (entry : NavEntry),
      pyIn "0." (pyLower entry.title) = true ∨ pyIn "1." (pyLower entry.title) = true →
      navSectionFor soup k entry = none := by
  intro soup k entry h
  unfold navSectionFor
  rw [if_pos h]

/-- C8 witness: the entry titled `1.2` on a concrete page yields no
section. -/
theorem version_noise_substring_skip_witness :
    navSectionFor soupVersion 0 ⟨"1.2", "#v2", 1⟩ = none :=
  version_noise_substring_skip soupVersion 0 ⟨"1.2", "#v2", 1⟩ (Or.inr (by decide))

theorem additionalBlock_some {ec : List String} {c : Nat} {e : Elem} {sd : SectionData}
    (h : additionalBlock ec c e = some sd) :
    pyTake 100 sd.content ∉ ec := by
  simp only [additionalBlock] at h
  split at h
  · cases h
    next hg => exact hg.2
  · cases h

theorem addBlocksLoop_mem {ec : List String} :
    ∀ (es : List Elem) (secs : List SectionData) (sd : SectionData),
      sd ∈ addBlocksLoop ec es secs → sd ∈ secs ∨ pyTake 100 sd.content ∉ ec := by
  intro es
  induction es with
  | nil => intro secs sd h; exact Or.inl h
  | cons e rest ih =>
    intro secs sd h
    unfold addBlocksLoop at h
    cases hb : additionalBlock ec secs.length e with
    | none =>
      rw [hb] at h
      exact ih secs sd h
    | some sd' =>
      rw [hb] at h
      rcases ih _ sd h with hmem | hnot
      · rcases List.mem_append.mp hmem with h1 | h2
        · exact Or.inl h1
        · have hsd : sd = sd' := by simpa using h2
          subst hsd
          exact Or.inr (additionalBlock_some hb)
      · exact Or.inr hnot

/-- C3 counterexample: on a page whose identified heading is also a
navigation target, the heading-based and the navigation-based
candidates share the same content, hence the same first-100-character
fingerprint, yet both survive to become documents: the later candidate
is not dropped. -/
theorem dedup_misses_navigation_duplicate :
    (extract_sections_from_spa soupDup navDup "https://site/page" "t").map
        (fun d => d.content) = [txtAlpha, txtAlpha] ∧
    ¬ ((extract_sections_from_spa soupDup navDup "https://site/page" "t").map
        (fun d => pyTake 100 d.content)).Nodup := by
  refine ⟨by decide, by decide⟩

/-- C3 (corrected): the first-100-character fingerprint check guards
only the supplementary block scan, against the candidates already
present when that scan starts: every candidate `extract_additional_content_blocks`
adds is either one of the initial candidates or has a fingerprint
different from all of theirs.  Navigation-based candidates (appended
afterwards) are never fingerprint-checked, as the counterexample shows. -/
theorem additional_blocks_dedup_against_initial :
    ∀ (soup : ElemList) (sections : List SectionData) (sd : SectionData),
      sd ∈ extract_additional_content_blocks soup sections →
      sd ∈ sections ∨
        pyTake 100 sd.content ∉ sections.map (fun s => pyTake 100 s.content) := by
  intro soup sections sd h
  exact addBlocksLoop_mem (selectedElems soup) sections sd h

/-- C3 witness: the corrected statement at a concrete page with one
`article` block scanned against one existing candidate. -/
theorem additional_blocks_dedup_witness :
    sdArticle ∈ [sdShared1] ∨
      pyTake 100 sdArticle.content ∉ [sdShared1].map (fun s => pyTake 100 s.content) :=
  additional_blocks_dedup_against_initial soupArticle [sdShared1] sdArticle (by decide)

mutual
theorem findTailsE_eq_nil :
    ∀ (p : Elem → Bool) (e : Elem) (tail : ElemList),
      (∀ x ∈ e.all, p x = false) → findTailsE p e tail = []
  | p, .mk n i c t ch, tail, h => by
    have h0 : p (.mk n i c t ch) = false := h _ (by simp [Elem.all])
    have hch : findTailsL p ch = [] :=
      findTailsL_eq_nil p ch (fun x hx => h x (by simp [Elem.all, hx]))
    simp [findTailsE, h0, hch]
theorem findTailsL_eq_nil :
    ∀ (p : Elem → Bool) (l : ElemList),
      (∀ x ∈ l.all, p x = false) → findTailsL p l = []
  | _, .nil, _ => rfl
  | p, .cons e es, h => by
    have h1 : findTailsE p e es = [] :=
      findTailsE_eq_nil p e es (fun x hx => h x (by simp [ElemList.all, hx]))
    have h2 : findTailsL p es = [] :=
      findTailsL_eq_nil p es (fun x hx => h x (by simp [ElemList.all, hx]))
    simp [findTailsL, h1, h2]
end

/-- C7 (confirmed): content resolution for a navigation entry tries the
same-page anchor id first — when the href starts with `#` and an
element with the fragment id exists, that lookup's result is the
resolution — and an entry whose fragment id matches no element and
whose title matches no h1-h6 heading bidirectionally
(case-insensitively) yields no section: no crash and no default. -/
theorem nav_entry_unresolvable_yields_none :
    (∀ (soup : ElemList) (title href : String) (r : Elem × ElemList),
      pyStartsWith "#" href = true →
      findFirstWithTail (fun e => decide (e.idAttr = some (pyDrop 1 href))) soup = some r →
      resolveContentElem soup title href = some r) ∧
    (∀ (soup : ElemList) (k : Nat) (entry : NavEntry),
      (∀ e ∈ ElemList.all soup, e.idAttr ≠ some (pyDrop 1 entry.href)) →
      (∀ e ∈ ElemList.all soup, memS e.name headingTagsAll = true →
        pyIn (pyLower entry.title) (pyLower (pyStrip e.getText)) = false ∧
        pyIn (pyLower (pyStrip e.getText)) (pyLower entry.title) = false) →
      navSectionFor soup k entry = none) := by
  constructor
  · intro soup title href r hs hf
    simp [resolveContentElem, hs, hf]
  · intro soup k entry hid hheads
    have h1 : findTailsL (fun e => decide (e.idAttr = some (pyDrop 1 entry.href))) soup = [] :=
      findTailsL_eq_nil _ _ (fun x hx => by simp [hid x hx])
    have h2 : findTailsL
        (fun e => memS e.name headingTagsAll &&
          (pyIn (pyLower entry.title) (pyLower (pyStrip e.getText)) ||
           pyIn (pyLower (pyStrip e.getText)) (pyLower entry.title))) soup = [] := by
      refine findTailsL_eq_nil _ _ (fun x hx => ?_)
      cases hm : memS x.name headingTagsAll with
      | false => simp [hm]
      | true =>
        obtain ⟨ha, hb⟩ := hheads x hx hm
        simp [hm, ha, hb]
    have hres : resolveContentElem soup entry.title entry.href = none := by
      simp [resolveContentElem, findFirstWithTail, h1, h2]
    unfold navSectionFor
    split
    · rfl
    · simp [hres]

/-- C7 witness: id-priority resolution at a concrete identified block,
and the unresolvable entry `#missing-id` / unmatched title yielding no
section on a concrete page. -/
theorem nav_entry_unresolvable_yields_none_witness :
    resolveContentElem soupTarget "Any Title" "#target-id" =
      some (el "div" (some "target-id") [] "Target block content." [], ElemList.nil) ∧
    navSectionFor soupMissing 0 entryMissing = none :=
  ⟨nav_entry_unresolvable_yields_none.1 soupTarget "Any Title" "#target-id"
     (el "div" (some "target-id") [] "Target block content." [], ElemList.nil)
     (by decide) rfl,
   nav_entry_unresolvable_yields_none.2 soupMissing 0 entryMissing
     (by decide) (by decide)⟩

/-- C9 (confirmed): a heading's candidate takes its anchor id from the
heading's own id attribute when present and otherwise derives it from
the stripped heading text by lower-casing and replacing spaces with
hyphens; two headings without id attributes whose texts strip equal
always yield the same anchor id. -/
theorem heading_anchor_id_stable :
    (∀ (nav : List NavEntry) (h : Elem) (tl : ElemList) (sd : SectionData),
      buildHeadingSection nav h tl = some sd →
      sd.id = h.idAttr.getD (slugOf (pyStrip h.getText))) ∧
    (∀ (nav nav' : List NavEntry) (h h' : Elem) (tl tl' : ElemList)
        (sd sd' : SectionData),
      buildHeadingSection nav h tl = some sd →
      buildHeadingSection nav' h' tl' = some sd' →
      h.idAttr = none → h'.idAttr = none →
      pyStrip h.getText = pyStrip h'.getText →
      sd.id = sd'.id) := by
  have base : ∀ (nav : List NavEntry) (h : Elem) (tl : ElemList) (sd : SectionData),
      buildHeadingSection nav h tl = some sd →
      sd.id = h.idAttr.getD (slugOf (pyStrip h.getText)) := by
    intro nav h tl sd hs
    simp only [buildHeadingSection] at hs
    split at hs
    · cases hs
    · split at hs
      · cases hs
        rfl
      · cases hs
  refine ⟨base, ?_⟩
  intro nav nav' h h' tl tl' sd sd' hs hs' hn hn' htxt
  rw [base nav h tl sd hs, base nav' h' tl' sd' hs', hn, hn', htxt]

/-- C9 witness: two concrete id-less headings stripping to the same
title produce candidates with the same derived anchor id. -/
theorem heading_anchor_id_stable_witness :
    buildHeadingSection [] hShared1 tlShared1 = some sdShared1 ∧
    buildHeadingSection [] hShared2 tlShared2 = some sdShared2 ∧
    sdShared1.id = sdShared2.id :=
  ⟨by decide, by decide,
   heading_anchor_id_stable.2 [] [] hShared1 hShared2 tlShared1 tlShared2
     sdShared1 sdShared2 (by decide) (by decide) rfl rfl (by decide)⟩

theorem navSectionFor_some_id {soup : ElemList} {k : Nat} {entry : NavEntry}
    {sd : SectionData} (h : navSectionFor soup k entry = some sd) :
    sd.id = "nav-" ++ Nat.repr k ++ "-" ++ slugOf sd.title := by
  simp only [navSectionFor] at h
  split at h
  · cases h
  · split at h
    · cases h
    · split at h
      · cases h
        rfl
      · cases h

theorem navLoop_getElemQ {soup : ElemList} :
    ∀ (rest : List NavEntry) (acc : List SectionData),
      (∀ (i : Nat) (sd : SectionData), acc[i]? = some sd →
        sd.id = "nav-" ++ Nat.repr i ++ "-" ++ slugOf sd.title) →
      ∀ (i : Nat) (sd : SectionData), (navLoop soup rest acc)[i]? = some sd →
        sd.id = "nav-" ++ Nat.repr i ++ "-" ++ slugOf sd.title := by
  intro rest
  induction rest with
  | nil =>
    intro acc hacc i sd h
    exact hacc i sd h
  | cons e es ih =>
    intro acc hacc i sd h
    cases hsd : navSectionFor soup acc.length e with
    | none =>
      have heq : navLoop soup (e :: es) acc = navLoop soup es acc := by
        simp only [navLoop, hsd]
      rw [heq] at h
      exact ih acc hacc i sd h
    | some sd' =>
      have heq : navLoop soup (e :: es) acc = navLoop soup es (acc ++ [sd']) := by
        simp only [navLoop, hsd]
      rw [heq] at h
      refine ih (acc ++ [sd']) ?_ i sd h
      intro j x hx
      rcases Nat.lt_or_ge j acc.length with hlt | hge
      · rw [List.getElem?_append_left hlt] at hx
        exact hacc j x hx
      · rw [List.getElem?_append_right hge] at hx
        rcases Nat.eq_or_lt_of_le hge with hj | hj
        · have hz : j - acc.length = 0 := by omega
          rw [hz] at hx
          have hxx : sd' = x := by simpa using hx
          subst hxx
          rw [hj] at hsd
          exact navSectionFor_some_id hsd
        · have hz : 1 ≤ j - acc.length := by omega
          have : ([sd'] : List SectionData)[j - acc.length]? = none := by
            apply List.getElem?_eq_none
            simpa using hz
          rw [this] at hx
          cases hx

/-- C10 (confirmed): every navigation-based candidate at position `i`
of the produced list carries the anchor id `nav-`, then the count `i`
of navigation-based sections created before it, then a hyphen and the
slug of its title — and the persisted document url is the page url, a
`#`, and that id, so the url depends on how many earlier entries
resolved. -/
theorem nav_anchor_id_positional :
    (∀ (soup : ElemList) (nav : List NavEntry) (i : Nat) (sd : SectionData),
      (extract_navigation_based_sections soup nav)[i]? = some sd →
      sd.id = "nav-" ++ Nat.repr i ++ "-" ++ slugOf sd.title) ∧
    (∀ (u ts : String) (s : SectionData), (docOfSection u ts s).url = u ++ "#" ++ s.id) := by
  constructor
  · intro soup nav i sd h
    refine navLoop_getElemQ nav [] ?_ i sd h
    intro j x hx
    simp at hx
  · intro u ts s
    rfl

/-- C10 witness: on a concrete page with two resolving entries, the
second produced section is the expected record, its id is
`nav-1-beta-part`, and its document url appends `#` and that id to the
page url. -/
theorem nav_anchor_id_positional_witness :
    (extract_navigation_based_sections soupTwoNav navTwoNav)[1]? = some sdNav1 ∧
    sdNav1.id = "nav-" ++ Nat.repr 1 ++ "-" ++ slugOf sdNav1.title ∧
    (docOfSection "https://site/page" "t" sdNav1).url =
      "https://site/page" ++ "#" ++ sdNav1.id :=
  ⟨by decide,
   nav_anchor_id_positional.1 soupTwoNav navTwoNav 1 sdNav1 (by decide),
   nav_anchor_id_positional.2 "https://site/page" "t" sdNav1⟩

theorem collectUntilBoundary_eq (hlev : Nat) :
    ∀ l : ElemList, collectUntilBoundary hlev l =
      (l.toList.takeWhile
        (fun e => !(memS e.name headingTags123 && decide (hLevel e.name ≤ hlev)))).filter
        (fun e => memS e.name contentTags)
  | .nil => rfl
  | .cons e rest => by
    have ih := collectUntilBoundary_eq hlev rest
    have htl : (ElemList.cons e rest).toList = e :: rest.toList := rfl
    rw [collectUntilBoundary, htl, List.takeWhile_cons]
    by_cases hb : memS e.name headingTags123 ∧ hLevel e.name ≤ hlev
    · rw [if_pos hb]
      have hpred : (!(memS e.name headingTags123 && decide (hLevel e.name ≤ hlev))) = false := by
        rw [hb.1, decide_eq_true hb.2]
        rfl
      rw [hpred]
      simp
    · rw [if_neg hb]
      have hpred : (!(memS e.name headingTags123 && decide (hLevel e.name ≤ hlev))) = true := by
        cases h1 : memS e.name headingTags123 with
        | false => rfl
        | true =>
          have h2 : ¬ hLevel e.name ≤ hlev := fun hh => hb ⟨h1, hh⟩
          rw [decide_eq_false h2]
          rfl
      rw [hpred, if_pos rfl, List.filter_cons, ih]
      by_cases hc : memS e.name contentTags = true
      · rw [if_pos hc, if_pos hc]
        rfl
      · rw [if_neg hc, if_neg hc]
        rfl

/-- C6 (confirmed): the heading-based sibling walk collects
exactly the content-tagged elements (p, div, ul, ol, pre, code,
blockquote) preceding the first h1-h3 sibling of numerically equal or
smaller level; in the concrete H1/H2/H2 scenario (Alpha, Beta, Gamma),
Beta's section gets only the text between Beta and Gamma, with no leak
of Gamma's content. -/
theorem heading_walk_level_boundary :
    (∀ (hlev : Nat) (l : ElemList),
      collectUntilBoundary hlev l =
        (l.toList.takeWhile
          (fun e => !(memS e.name headingTags123 && decide (hLevel e.name ≤ hlev)))).filter
          (fun e => memS e.name contentTags)) ∧
    (headingSections soupLevels []).map (fun s => (s.title, s.content)) =
      [("Alpha Heading", pyJoin " " [txtA, txtB, txtC]),
       ("Beta Heading", txtB), ("Gamma Heading", txtC)] := by
  constructor
  · exact fun hlev l => collectUntilBoundary_eq hlev l
  · decide

theorem trimL_cons (c : Char) (t : List Char) :
    trimL (c :: t) = if wsp c then trimL t else c :: t := by
  simp [trimL, List.dropWhile_cons]

theorem trimL_eq_self_cons {c : Char} {t : List Char}
    (h : trimL (c :: t) = c :: t) : wsp c = false := by
  cases hw : wsp c with
  | false => rfl
  | true =>
    rw [trimL_cons, if_pos hw] at h
    have hle : (trimL t).length ≤ t.length := (List.dropWhile_suffix wsp).length_le
    rw [h] at hle
    simp at hle

theorem trimL_idem (l : List Char) : trimL (trimL l) = trimL l := by
  induction l with
  | nil => rfl
  | cons c t ih =>
    rw [trimL_cons]
    by_cases hc : wsp c = true
    · rw [if_pos hc]
      exact ih
    · rw [if_neg hc, trimL_cons, if_neg hc]

theorem trimR_idem (l : List Char) : trimR (trimR l) = trimR l := by
  simp [trimR, List.reverse_reverse, trimL_idem]

theorem trimL_suffix (l : List Char) : trimL l <:+ l := List.dropWhile_suffix wsp

theorem trimR_prefix (l : List Char) : trimR l <+: l := by
  have h := trimL_suffix l.reverse
  have := List.reverse_prefix.mpr h
  simpa [trimR] using this

theorem stripped_split {m : List Char} (h : stripL m = m) :
    trimL m = m ∧ trimR m = m := by
  have hpre : m <+: trimL m := by
    have h0 := trimR_prefix (trimL m)
    rwa [show trimR (trimL m) = m from h] at h0
  have hsuf : trimL m <:+ m := trimL_suffix m
  have hT : m = trimL m :=
    hpre.eq_of_length (Nat.le_antisymm hpre.length_le hsuf.length_le)
  refine ⟨hT.symm, ?_⟩
  calc trimR m = trimR (trimL m) := by rw [← hT]
    _ = stripL m := rfl
    _ = m := h

theorem stripL_eq_self_of {m : List Char} (h1 : trimL m = m) (h2 : trimR m = m) :
    stripL m = m := by
  show trimR (trimL m) = m
  rw [h1, h2]

theorem trimL_trimR_of_trimL {m : List Char} (h : trimL m = m) :
    trimL (trimR m) = trimR m := by
  cases hm : trimR m with
  | nil => rfl
  | cons c t =>
    have hpre : trimR m <+: m := trimR_prefix m
    rw [hm] at hpre
    rcases hpre with ⟨r, hr⟩
    have hc : wsp c = false := by
      apply trimL_eq_self_cons (t := t ++ r)
      rw [List.cons_append] at hr
      rw [hr]
      exact h
    rw [trimL_cons, hc]
    simp

theorem stripL_idem (l : List Char) : stripL (stripL l) = stripL l :=
  stripL_eq_self_of (trimL_trimR_of_trimL (trimL_idem l)) (trimR_idem (trimL l))

theorem pyStrip_idem (s : String) : pyStrip (pyStrip s) = pyStrip s := by
  show (⟨stripL (stripL s.data)⟩ : String) = ⟨stripL s.data⟩
  rw [stripL_idem]

theorem trimL_append_of {a : List Char} (h : trimL a = a) (ha : a ≠ [])
    (x : List Char) : trimL (a ++ x) = a ++ x := by
  match a, ha with
  | c :: t, _ =>
    have hc : wsp c = false := trimL_eq_self_cons h
    rw [List.cons_append, trimL_cons, hc]
    simp

theorem trimR_append_of {x : List Char} (h : trimR x = x) (hx : x ≠ [])
    (a : List Char) : trimR (a ++ x) = a ++ x := by
  have hrev : trimL x.reverse = x.reverse := by
    have hc := congrArg List.reverse h
    simpa [trimR] using hc
  have hxr : x.reverse ≠ [] := by simpa using hx
  show (trimL (a ++ x).reverse).reverse = a ++ x
  rw [List.reverse_append, trimL_append_of hrev hxr]
  simp

theorem joinWith_stripped :
    ∀ ps : List (List Char), (∀ p ∈ ps, p ≠ [] ∧ trimL p = p ∧ trimR p = p) →
      trimL (joinWith [' '] ps) = joinWith [' '] ps ∧
      trimR (joinWith [' '] ps) = joinWith [' '] ps := by
  intro ps
  induction ps with
  | nil => intro _; exact ⟨rfl, rfl⟩
  | cons p qs ih =>
    intro h
    obtain ⟨hp1, hp2, hp3⟩ := h p (List.mem_cons_self p qs)
    cases qs with
    | nil => exact ⟨hp2, hp3⟩
    | cons q rs =>
      obtain ⟨hJ1, hJ2⟩ := ih (fun x hx => h x (List.mem_cons_of_mem _ hx))
      have hJne : joinWith [' '] (q :: rs) ≠ [] := by
        obtain ⟨hq1, hq2, _⟩ := h q (List.mem_cons_of_mem _ (List.mem_cons_self q rs))
        cases rs with
        | nil => exact hq1
        | cons r rest =>
          show q ++ [' '] ++ joinWith [' '] (r :: rest) ≠ []
          simp
      have hJ : joinWith [' '] (p :: q :: rs) = p ++ [' '] ++ joinWith [' '] (q :: rs) := rfl
      constructor
      · rw [hJ, List.append_assoc]
        exact trimL_append_of hp2 hp1 _
      · rw [hJ]
        exact trimR_append_of hJ2 hJne _

theorem pyStrip_join {parts : List String}
    (h : ∀ p ∈ parts, p ≠ "" ∧ pyStrip p = p) :
    pyStrip (pyJoin " " parts) = pyJoin " " parts := by
  have hchars : ∀ q ∈ parts.map String.data, q ≠ [] ∧ trimL q = q ∧ trimR q = q := by
    intro q hq
    rcases List.mem_map.mp hq with ⟨p, hp, rfl⟩
    obtain ⟨h1, h2⟩ := h p hp
    have hd : stripL p.data = p.data := congrArg String.data h2
    obtain ⟨hT, hR⟩ := stripped_split hd
    refine ⟨?_, hT, hR⟩
    intro hc
    apply h1
    cases p with
    | mk d =>
      simp only at hc
      rw [hc]
  have hmain := joinWith_stripped (parts.map String.data) hchars
  show (⟨stripL (joinWith [' '] (parts.map String.data))⟩ : String) =
    ⟨joinWith [' '] (parts.map String.data)⟩
  rw [stripL_eq_self_of hmain.1 hmain.2]

theorem gatherParts_parts :
    ∀ es : List Elem, ∀ p ∈ (gatherParts es).1, p ≠ "" ∧ pyStrip p = p := by
  intro es
  induction es with
  | nil => intro p hp; simp [gatherParts] at hp
  | cons e rest ih =>
    intro p hp
    simp only [gatherParts] at hp
    by_cases ht : pyStrip e.getText ≠ ""
    · rw [if_pos ht] at hp
      rcases List.mem_cons.mp hp with rfl | hmem
      · exact ⟨ht, pyStrip_idem e.getText⟩
      · exact ih p hmem
    · rw [if_neg ht] at hp
      exact ih p hp

theorem navWalk_parts (navLevel : Nat) :
    ∀ (l : ElemList) (clen : Nat) (isFirst : Bool),
      ∀ p ∈ (navWalk navLevel l clen isFirst).1, p ≠ "" ∧ pyStrip p = p
  | .nil, clen, isFirst => by
    intro p hp
    simp [navWalk] at hp
  | .cons e rest, clen, isFirst => by
    intro p hp
    have ih := navWalk_parts navLevel rest
    simp only [navWalk] at hp
    split at hp
    · simp at hp
    · split at hp
      · simp at hp
      · split at hp
        · next hcond =>
          rcases List.mem_cons.mp hp with rfl | hmem
          · exact ⟨hcond.2, pyStrip_idem e.getText⟩
          · exact ih _ _ p hmem
        · exact ih _ _ p hp

theorem buildHeadingSection_content {nav : List NavEntry} {hd : Elem}
    {tl : ElemList} {sd : SectionData}
    (h : buildHeadingSection nav hd tl = some sd) :
    pyStrip sd.content = sd.content ∧ 50 < pyLen sd.content := by
  simp only [buildHeadingSection] at h
  split at h
  · cases h
  · split at h
    · next hcond =>
      cases h
      exact ⟨pyStrip_join (gatherParts_parts _), hcond.2⟩
    · cases h

theorem navSectionFor_content {soup : ElemList} {k : Nat} {entry : NavEntry}
    {sd : SectionData} (h : navSectionFor soup k entry = some sd) :
    pyStrip sd.content = sd.content ∧ 100 < pyLen sd.content := by
  simp only [navSectionFor] at h
  split at h
  · cases h
  · split at h
    · cases h
    · split at h
      · next hcond =>
        cases h
        exact ⟨pyStrip_join (navWalk_parts _ _ _ _), hcond.2⟩
      · cases h

theorem additionalBlock_content {ec : List String} {c : Nat} {e : Elem}
    {sd : SectionData} (h : additionalBlock ec c e = some sd) :
    pyStrip sd.content = sd.content ∧ 200 < pyLen sd.content := by
  simp only [additionalBlock] at h
  split at h
  · next hg =>
    cases h
    exact ⟨pyStrip_idem _, hg.1⟩
  · cases h

theorem addBlocksLoop_mem_src {ec : List String} :
    ∀ (es : List Elem) (secs : List SectionData) (sd : SectionData),
      sd ∈ addBlocksLoop ec es secs →
      sd ∈ secs ∨ ∃ c e, additionalBlock ec c e = some sd := by
  intro es
  induction es with
  | nil => intro secs sd h; exact Or.inl h
  | cons e rest ih =>
    intro secs sd h
    unfold addBlocksLoop at h
    cases hb : additionalBlock ec secs.length e with
    | none =>
      rw [hb] at h
      exact ih secs sd h
    | some sd' =>
      rw [hb] at h
      rcases ih _ sd h with hmem | hnew
      · rcases List.mem_append.mp hmem with h1 | h2
        · exact Or.inl h1
        · have hsd : sd = sd' := by simpa using h2
          subst hsd
          exact Or.inr ⟨secs.length, e, hb⟩
      · exact Or.inr hnew

theorem navLoop_mem {soup : ElemList} :
    ∀ (rest : List NavEntry) (acc : List SectionData) (sd : SectionData),
      sd ∈ navLoop soup rest acc →
      sd ∈ acc ∨ ∃ k e, navSectionFor soup k e = some sd := by
  intro rest
  induction rest with
  | nil => intro acc sd h; exact Or.inl h
  | cons e es ih =>
    intro acc sd h
    unfold navLoop at h
    cases hb : navSectionFor soup acc.length e with
    | none =>
      rw [hb] at h
      exact ih acc sd h
    | some sd' =>
      rw [hb] at h
      rcases ih _ sd h with hmem | hnew
      · rcases List.mem_append.mp hmem with h1 | h2
        · exact Or.inl h1
        · have hsd : sd = sd' := by simpa using h2
          subst hsd
          exact Or.inr ⟨acc.length, e, hb⟩
      · exact Or.inr hnew

theorem comprehensive_sections_content {soup : ElemList} {nav : List NavEntry}
    {s : SectionData} (h : s ∈ extract_comprehensive_sections soup nav) :
    pyStrip s.content = s.content ∧ 50 < pyLen s.content := by
  unfold extract_comprehensive_sections at h
  rcases List.mem_append.mp h with h1 | h2
  · unfold extract_additional_content_blocks at h1
    rcases addBlocksLoop_mem_src _ _ _ h1 with hh | ⟨c, e, hb⟩
    · unfold headingSections at hh
      rcases List.mem_filterMap.mp hh with ⟨ht, _, hbuild⟩
      exact buildHeadingSection_content hbuild
    · obtain ⟨hs, hl⟩ := additionalBlock_content hb
      exact ⟨hs, by omega⟩
  · unfold extract_navigation_based_sections at h2
    rcases navLoop_mem _ _ _ h2 with hmem | ⟨k, e, hb⟩
    · simp at hmem
    · obtain ⟨hs, hl⟩ := navSectionFor_content hb
      exact ⟨hs, by omega⟩

/-- C4 (confirmed): a produced candidate becomes a persisted document
exactly under the content floor — every accepted document's content
exceeds 100 characters (also after stripping, since every produced
candidate's content is already stripped), and a produced candidate
whose stripped content has at most 100 characters yields no document
(no accepted document carries its content). -/
theorem accepted_documents_content_floor :
    ∀ (soup : ElemList) (nav : List NavEntry) (u ts : String),
      (∀ d ∈ extract_sections_from_spa soup nav u ts,
        100 < pyLen d.content ∧ 100 < pyLen (pyStrip d.content)) ∧
      (∀ s ∈ extract_comprehensive_sections soup nav,
        pyLen (pyStrip s.content) ≤ 100 →
        ∀ d ∈ extract_sections_from_spa soup nav u ts, d.content ≠ s.content) := by
  intro soup nav u ts
  have hdoc : ∀ d ∈ extract_sections_from_spa soup nav u ts,
      100 < pyLen d.content ∧ 100 < pyLen (pyStrip d.content) := by
    intro d hd
    unfold extract_sections_from_spa at hd
    rcases List.mem_filterMap.mp hd with ⟨s, hs, hmk⟩
    split at hmk
    · next hcond =>
      cases hmk
      have hstr := (comprehensive_sections_content hs).1
      refine ⟨hcond.2, ?_⟩
      show 100 < pyLen (pyStrip s.content)
      rw [hstr]
      exact hcond.2
    · cases hmk
  refine ⟨hdoc, ?_⟩
  intro s hs hle d hd heq
  have hstr := (comprehensive_sections_content hs).1
  rw [hstr] at hle
  have hgt := (hdoc d hd).1
  rw [heq] at hgt
  omega

/-- C4 witness: on a concrete page, the Delta candidate (content over
100 characters) becomes a document satisfying both floors, and the
Epsilon candidate (stripped content at most 100 characters) is
discarded — the accepted document does not carry its content. -/
theorem accepted_documents_content_floor_witness :
    (100 < pyLen docDelta.content ∧ 100 < pyLen (pyStrip docDelta.content)) ∧
    docDelta.content ≠ sdEpsilon.content :=
  ⟨(accepted_documents_content_floor soupFloor [] "https://site/page"
      "2025-01-01T00:00:00Z").1 docDelta (by decide),
   (accepted_documents_content_floor soupFloor [] "https://site/page"
      "2025-01-01T00:00:00Z").2 sdEpsilon (by decide) (by decide) docDelta (by decide)⟩

end Strands
